import Mathlib

set_option maxHeartbeats 1000000

namespace QcImage

/-- The `infiles_t` state of `src/utils.c`. `files` is the backing `char **`
array: `none` models the NULL pointer that `pFiles->files = realloc(...)`
leaves behind when `realloc` fails. Each slot holds the stored path together
with the `st_size` that `stat` reported when the path was appended (the size
is recorded so that the enumeration-time invariant can be stated); a `none`
slot models an uninitialized slot of a fresh array obtained by
`realloc(NULL, ...)` after an earlier allocation failure. `fileCnt` mirrors
the C counter. -/
structure InFiles where
  files : Option (List (Option (String × Nat)))
  fileCnt : Nat
  deriving DecidableEq, Repr

mutual
/-- A filesystem object as the syscalls of `utils_readdir` observe it.
`file size reallocOk strdupOk` is a regular file; the two booleans are the
environment's answers to the `realloc` and `strdup` calls that would be made
if this file were appended. `special` is a non-regular, non-directory object.
`statFails` is a path whose `stat` call fails. `dir openOk endErr items` is a
directory: `openOk` is the outcome of `opendir`, `items` the successive
results of `readdir`, and `endErr` tells whether the final NULL return of
`readdir` comes with a nonzero errno. -/
inductive Node where
  | file (size : Nat) (reallocOk : Bool) (strdupOk : Bool)
  | special
  | statFails
  | dir (openOk : Bool) (endErr : Bool) (items : List DirItem)

/-- One non-final result of a `readdir` call inside the loop of
`utils_readdir`: either a NULL return with `errno == EINTR` (retried by the
loop), or an actual entry with its `d_name` and the object its joined path
designates. -/
inductive DirItem where
  | eintr
  | entry (name : String) (node : Node)
end

/-- Outcome of a call to `utils_readdir` (and of `utils_init_files`):
`ok s` is a `true` return with the mutated `infiles_t` state `s`, `fail s` a
`false` return, and `fatal` a process termination (a fatal-level log). The
walker itself never produces `fatal`; the constructor exists so that the
distinction between an ordinary failure return and a process abort can be
stated. -/
inductive WalkOut where
  | ok (s : InFiles)
  | fail (s : InFiles)
  | fatal
  deriving DecidableEq, Repr

/-- The array of slots `pFiles->files` currently points to, as `realloc`
sees it: if the pointer is NULL (after a previous failed `realloc`),
`realloc(NULL, (cnt+1)*sizeof(char *))` returns a fresh array whose first
`cnt` slots are uninitialized. -/
def currentArr (s : InFiles) : List (Option (String × Nat)) :=
  match s.files with
  | none => List.replicate s.fileCnt none
  | some l => l

mutual
/-- Shallow embedding of `utils_readdir` (src/utils.c:29-100) applied to the
object `basePath` designates. `opendir` fails (returning `false`) when
`openOk` is false or the object is not a directory; otherwise the entry loop
`walkEntries` runs. -/
def utils_readdir (s : InFiles) (basePath : String) (n : Node) : WalkOut :=
  match n with
  | .dir true endErr items => walkEntries s basePath endErr items
  | .dir false _ _ => .fail s
  | .file _ _ _ => .fail s
  | .special => .fail s
  | .statFails => .fail s

/-- The `for (;;)` entry loop of `utils_readdir` (src/utils.c:36-96), one
`readdir` result per list element. A NULL+EINTR result is retried; at the
end of the stream the loop returns `false` if `errno` is set (`endErr`) and
`true` otherwise. `.` and `..` are skipped; an entry whose `stat` fails is
skipped; a directory entry is recursed into and, whether the recursion
succeeds or fails, the entry is then skipped by the `!S_ISREG` test;
non-regular entries and empty regular files are skipped; a regular non-empty
file is appended: a failed `realloc` sets `pFiles->files` to NULL and
returns `false`, a failed `strdup` returns `false` with the grown array in
place, and on success the path is stored and `fileCnt` incremented. -/
def walkEntries (s : InFiles) (basePath : String) (endErr : Bool)
    (items : List DirItem) : WalkOut :=
  match items with
  | [] => if endErr then .fail s else .ok s
  | .eintr :: rest => walkEntries s basePath endErr rest
  | .entry name node :: rest =>
    if name == "." || name == ".." then
      walkEntries s basePath endErr rest
    else
      match node with
      | .statFails => walkEntries s basePath endErr rest
      | .dir o e its =>
        match utils_readdir s (basePath ++ "/" ++ name) (.dir o e its) with
        | .ok s2 => walkEntries s2 basePath endErr rest
        | .fail s2 => walkEntries s2 basePath endErr rest
        | .fatal => .fatal
      | .special => walkEntries s basePath endErr rest
      | .file sz rOk dOk =>
        if sz = 0 then
          walkEntries s basePath endErr rest
        else if rOk then
          if dOk then
            walkEntries
              ⟨some (currentArr s ++ [some (basePath ++ "/" ++ name, sz)]),
               s.fileCnt + 1⟩ basePath endErr rest
          else .fail ⟨some (currentArr s), s.fileCnt⟩
        else .fail ⟨none, s.fileCnt⟩
end

/-- Shallow embedding of `utils_init_files` (src/utils.c:102-146).
`mallocOk` is the outcome of the initial `malloc(sizeof(char *))`,
`inputFile` the (possibly NULL) `pFiles->inputFile`, and `root` the object
the input path designates (`statFails` when `stat` on it fails). The caller
hands in a zeroed `infiles_t`, so the state starts at count 0. -/
def utils_init_files (mallocOk : Bool) (inputFile : Option String)
    (root : Node) : WalkOut :=
  if mallocOk then
    match inputFile with
    | none => .fail ⟨some [], 0⟩
    | some f =>
      match root with
      | .statFails => .fail ⟨some [], 0⟩
      | .dir o e its =>
        match utils_readdir ⟨some [], 0⟩ f (.dir o e its) with
        | .ok s => if s.fileCnt = 0 then .fail s else .ok s
        | .fail s => .fail s
        | .fatal => .fatal
      | .file sz _ _ => .ok ⟨some [some (f, sz)], 1⟩
      | .special => .fail ⟨some [], 0⟩
  else .fail ⟨none, 0⟩

mutual
/-- Decides that a tree contains no regular file of size greater than 0
anywhere: only empty regular files, special objects, stat-failing entries
and (sub)directories. -/
def noGoodNode : Node → Bool
  | .file sz _ _ => sz = 0
  | .special => true
  | .statFails => true
  | .dir _ _ items => noGoodItems items

/-- List version of `noGoodNode` over the `readdir` results of a
directory. -/
def noGoodItems : List DirItem → Bool
  | [] => true
  | .eintr :: rest => noGoodItems rest
  | .entry _ n :: rest => noGoodNode n && noGoodItems rest
end

mutual
/-- Decides that every allocation the environment would answer during a walk
of this tree succeeds: every regular file carries `reallocOk` and
`strdupOk`. -/
def allocsOkNode : Node → Bool
  | .file _ rOk dOk => rOk && dOk
  | .special => true
  | .statFails => true
  | .dir _ _ items => allocsOkItems items

/-- List version of `allocsOkNode` over the `readdir` results of a
directory. -/
def allocsOkItems : List DirItem → Bool
  | [] => true
  | .eintr :: rest => allocsOkItems rest
  | .entry _ n :: rest => allocsOkNode n && allocsOkItems rest
end

/-- The `infiles_t` state an outcome carries: both a `true` and a `false`
return leave a state behind; a process abort leaves none. -/
def outState : WalkOut → Option InFiles
  | .ok s => some s
  | .fail s => some s
  | .fatal => none

/-- A well-formed `infiles_t` state: the array pointer is non-NULL, the
counter equals the number of slots, and every slot holds a genuine path
whose recorded stat size is positive. -/
def goodState (s : InFiles) : Prop :=
  ∃ l, s.files = some l ∧ l.length = s.fileCnt ∧
    ∀ e ∈ l, ∃ p sz, e = some (p, sz) ∧ 0 < sz

/-- One result of a `write(2)` call as `utils_writeToFd` observes it: a
negative return with `errno == EINTR`, a negative return with any other
errno, or a non-negative return reporting `n` bytes written. -/
inductive WriteRes where
  | eintr
  | err
  | wrote (n : Nat)
  deriving DecidableEq, Repr

/-- The `while (written < fileSz)` loop of `utils_writeToFd`
(src/utils.c:149-157), consuming one oracle element per `write` call.
Returns `none` when the oracle is exhausted while the loop still runs
(the C loop would keep calling `write`); otherwise `some (b, w, c)` with the
returned boolean `b`, the final `written` counter `w` and the number `c` of
`write` calls performed. -/
def writeLoop : List WriteRes → Int → Int → Option (Bool × Int × Nat)
  | oracle, written, fileSz =>
    if written < fileSz then
      match oracle with
      | [] => none
      | .eintr :: rest =>
        (writeLoop rest written fileSz).map (fun r => (r.1, r.2.1, r.2.2 + 1))
      | .err :: _ => some (false, written, 1)
      | .wrote n :: rest =>
        (writeLoop rest (written + n) fileSz).map
          (fun r => (r.1, r.2.1, r.2.2 + 1))
    else some (true, written, 0)

/-- Shallow embedding of `utils_writeToFd` (src/utils.c:148-160): the loop
started at `written = 0`. -/
def utils_writeToFd (oracle : List WriteRes) (fileSz : Int) :
    Option (Bool × Int × Nat) :=
  writeLoop oracle 0 fileSz

/-- Soundness of a `write` oracle relative to a starting counter and a
target size: whenever the loop is still running (`w < sz`), a successful
`write` reports at most the `fileSz - written` bytes that were requested. -/
def soundFrom : List WriteRes → Int → Int → Prop
  | [], _, _ => True
  | .eintr :: rest, w, sz => soundFrom rest w sz
  | .err :: _, _, _ => True
  | .wrote n :: rest, w, sz =>
    (w < sz → (n : Int) ≤ sz - w) ∧ soundFrom rest (w + n) sz

/-- Result of `utils_mapFileToRead`: the returned buffer pointer (`none` is
the NULL return), the value stored through the `fileSz` out-parameter
(`none` when it is left untouched), whether a descriptor was opened, and
whether it was closed again before returning. -/
structure MapResult where
  ret : Option Nat
  szOut : Option Nat
  fdOpened : Bool
  fdClosed : Bool
  deriving DecidableEq, Repr

/-- Shallow embedding of `utils_mapFileToRead` (src/utils.c:162-184).
`openRes` is the outcome of `open` (`some fd` or failure), `statRes` of
`fstat` (`some st_size` or failure), `mmapRes` of `mmap` (`some buffer` or
`MAP_FAILED`). On `fstat` or `mmap` failure the descriptor is closed and
NULL returned; on success the buffer is returned, the size stored, and the
descriptor left open. -/
def utils_mapFileToRead (openRes : Option Nat) (statRes : Option Nat)
    (mmapRes : Option Nat) : MapResult :=
  match openRes with
  | none => ⟨none, none, false, false⟩
  | some _ =>
    match statRes with
    | none => ⟨none, none, true, true⟩
    | some stSize =>
      match mmapRes with
      | none => ⟨none, none, true, true⟩
      | some buf => ⟨some buf, some stSize, true, false⟩

/-- Result of an Allocator operation as the caller sees it: either an
ordinary return of a (possibly NULL) pointer, or a process termination. -/
inductive AllocOut where
  | ret (p : Option Nat)
  | fatal
  deriving DecidableEq, Repr

/-- Shallow embedding of `utils_malloc` (src/utils.c:186-193). `res` is the
outcome of the underlying `malloc` (`none` is a NULL return). Modelled from
the spec: the logging macro `LOGMSG` at level `l_FATAL` lives in `macros.h`,
which is not part of the given sources; per the spec's fatal policy ("log
and terminate the process immediately", which the code's own comment "This
is expected to abort" confirms) a fatal-level log terminates the process, so
the `return p` after it is unreachable and the failure branch yields
`AllocOut.fatal`. -/
def utils_malloc (res : Option Nat) : AllocOut :=
  match res with
  | none => .fatal
  | some p => .ret (some p)

/-- Shallow embedding of `utils_calloc` (src/utils.c:195-199): delegates to
`utils_malloc` and zeroes the buffer (the `memset` does not change which
pointer is returned). -/
def utils_calloc (res : Option Nat) : AllocOut :=
  match utils_malloc res with
  | .fatal => .fatal
  | .ret p => .ret p

/-- Shallow embedding of `utils_realloc` (src/utils.c:201-209). `ptr` is
the pointer being grown and `res` the outcome of the underlying `realloc`.
Modelled from the spec: as for `utils_malloc`, the fatal-level log in the
NULL branch terminates the process (the code comments "This is expected to
abort"), so the `free(ptr); return ret` after it is unreachable. -/
def utils_realloc (ptr : Option Nat) (res : Option Nat) : AllocOut :=
  match ptr, res with
  | _, none => .fatal
  | _, some p => .ret (some p)

/-- Left-pads the lowercase hex digits of `n` with zeros to width `w`: the
`%0wx` conversions of `utils_hexDump`. -/
def hexPad (w n : Nat) : String :=
  let ds := Nat.toDigits 16 n
  String.mk (List.replicate (w - ds.length) '0' ++ ds)

/-- The ASCII-gutter substitution of `utils_hexDump` (src/utils.c:269-272):
a byte below 0x20 or above 0x7e is rendered as a dot, any other byte as
itself. -/
def asciiByte (b : Nat) : Char :=
  if b < 0x20 ∨ 0x7e < b then '.' else Char.ofNat b

/-- The byte loop of `utils_hexDump` (src/utils.c:254-283), fuelled by the
number of bytes left. `i` is the loop index, `buff` the live prefix of the
17-byte gutter buffer (its `i % 16` filled slots). Each step emits the
previous gutter line and the `%04x` offset at a row start, then the `%02x`
byte; when the bytes run out the last row is padded to 16 columns with
3-space blanks and the final gutter emitted. The emitted strings are
collected in order. -/
def dumpLoop (pc : Nat → Nat) : Nat → Nat → List Char → List String
  | 0, i, buff =>
    List.replicate ((16 - i % 16) % 16) "   " ++ ["  " ++ String.mk buff ++ "\n"]
  | rem + 1, i, buff =>
    (if i % 16 == 0 then
      (if i == 0 then [] else ["  " ++ String.mk buff ++ "\n"]) ++
        ["  " ++ hexPad 4 i ++ " "]
     else []) ++
    [" " ++ hexPad 2 (pc i)] ++
    dumpLoop pc rem (i + 1)
      ((if i % 16 == 0 then [] else buff) ++ [asciiByte (pc i)])

/-- Shallow embedding of `utils_hexDump` (src/utils.c:236-284). `desc` is
the optional description, `pc` the byte at each index of the input buffer,
`len` the signed length. The result is the ordered list of strings the
function emits to the debug log. -/
def utils_hexDump (desc : Option String) (pc : Nat → Nat) (len : Int) :
    List String :=
  (match desc with
   | some d => [d ++ ":\n"]
   | none => []) ++
  (if len = 0 then ["  ZERO LENGTH\n"]
   else if len < 0 then ["  NEGATIVE LENGTH: " ++ toString len ++ "\n"]
   else dumpLoop pc len.toNat 0 [])

/-- The optional description line `utils_hexDump` emits first
(src/utils.c:242). -/
def descHeader : Option String → List String
  | some d => [d ++ ":\n"]
  | none => []

/-- The `%02x` hex codes of `n` consecutive bytes starting at index
`start`, one emitted string per byte. -/
def hexBytes (pc : Nat → Nat) (start n : Nat) : List String :=
  (List.range n).map (fun j => " " ++ hexPad 2 (pc (start + j)))

/-- The ASCII-gutter characters of `n` consecutive bytes starting at index
`start`. -/
def gutterChars (pc : Nat → Nat) (start n : Nat) : List Char :=
  (List.range n).map (fun j => asciiByte (pc (start + j)))

/-- The row layout the spec describes for a positive length, stated
independently of the byte loop: rows of 16 bytes each (the last row
possibly shorter and padded to 16 columns with 3-space blanks), each row
prefixed by the 4-hex-digit offset of its first byte and closed by its
ASCII gutter. -/
def hexRows (pc : Nat → Nat) (start n : Nat) : List String :=
  if n ≤ 16 then
    ["  " ++ hexPad 4 start ++ " "] ++ hexBytes pc start n ++
    List.replicate ((16 - n % 16) % 16) "   " ++
    ["  " ++ String.mk (gutterChars pc start n) ++ "\n"]
  else
    ["  " ++ hexPad 4 start ++ " "] ++ hexBytes pc start 16 ++
    ["  " ++ String.mk (gutterChars pc start 16) ++ "\n"] ++
    hexRows pc (start + 16) (n - 16)
termination_by n
decreasing_by omega

mutual
/-- The walker returns `true` or `false` but never terminates the process:
no branch of `utils_readdir` logs at fatal level. -/
theorem utils_readdir_ne_fatal :
    ∀ (n : Node) (s : InFiles) (p : String), utils_readdir s p n ≠ .fatal
  | .dir true endErr items, s, p => by
    rw [utils_readdir]
    exact walkEntries_ne_fatal items s p endErr
  | .dir false _ _, s, p => by rw [utils_readdir]; exact nofun
  | .file _ _ _, s, p => by rw [utils_readdir]; exact nofun
  | .special, s, p => by rw [utils_readdir]; exact nofun
  | .statFails, s, p => by rw [utils_readdir]; exact nofun

/-- The entry loop of the walker never terminates the process. -/
theorem walkEntries_ne_fatal :
    ∀ (items : List DirItem) (s : InFiles) (p : String) (e : Bool),
      walkEntries s p e items ≠ .fatal
  | [], s, p, e => by
    rw [walkEntries]
    split
    · exact nofun
    · exact nofun
  | .eintr :: rest, s, p, e => by
    rw [walkEntries]
    exact walkEntries_ne_fatal rest s p e
  | .entry name node :: rest, s, p, e => by
    rw [walkEntries.eq_def]
    dsimp only
    by_cases h : (name == "." || name == "..") = true
    · rw [if_pos h]
      exact walkEntries_ne_fatal rest s p e
    · rw [if_neg h]
      match node with
      | .statFails => exact walkEntries_ne_fatal rest s p e
      | .special => exact walkEntries_ne_fatal rest s p e
      | .file sz rOk dOk =>
        dsimp only
        split
        · exact walkEntries_ne_fatal rest s p e
        · split
          · split
            · exact walkEntries_ne_fatal _ _ p e
            · exact nofun
          · exact nofun
      | .dir o e2 its2 =>
        dsimp only
        rcases hh : utils_readdir s (p ++ "/" ++ name) (.dir o e2 its2) with
            s2 | s2 | _
        · exact walkEntries_ne_fatal rest s2 p e
        · exact walkEntries_ne_fatal rest s2 p e
        · exact absurd hh (utils_readdir_ne_fatal (.dir o e2 its2) s _)
end

mutual
/-- Walking a tree with no regular non-empty file anywhere never appends:
the walk returns `true` or `false` with the state untouched. -/
theorem utils_readdir_noGood :
    ∀ (n : Node) (s : InFiles) (p : String), noGoodNode n = true →
      utils_readdir s p n = .ok s ∨ utils_readdir s p n = .fail s
  | .dir true endErr items, s, p, hg => by
    rw [utils_readdir]
    exact walkEntries_noGood items s p endErr (by simpa [noGoodNode] using hg)
  | .dir false _ _, s, p, _ => by rw [utils_readdir]; exact Or.inr rfl
  | .file _ _ _, s, p, _ => by rw [utils_readdir]; exact Or.inr rfl
  | .special, s, p, _ => by rw [utils_readdir]; exact Or.inr rfl
  | .statFails, s, p, _ => by rw [utils_readdir]; exact Or.inr rfl

/-- Entry-loop version of `utils_readdir_noGood`. -/
theorem walkEntries_noGood :
    ∀ (items : List DirItem) (s : InFiles) (p : String) (e : Bool),
      noGoodItems items = true →
      walkEntries s p e items = .ok s ∨ walkEntries s p e items = .fail s
  | [], s, p, e, _ => by
    rw [walkEntries]
    split
    · exact Or.inr rfl
    · exact Or.inl rfl
  | .eintr :: rest, s, p, e, hg => by
    rw [walkEntries]
    exact walkEntries_noGood rest s p e (by simpa [noGoodItems] using hg)
  | .entry name node :: rest, s, p, e, hg => by
    have hn : noGoodNode node = true := by
      have := hg
      rw [noGoodItems] at this
      exact (Bool.and_eq_true_iff.mp this).1
    have hr : noGoodItems rest = true := by
      have := hg
      rw [noGoodItems] at this
      exact (Bool.and_eq_true_iff.mp this).2
    rw [walkEntries.eq_def]
    dsimp only
    by_cases h : (name == "." || name == "..") = true
    · rw [if_pos h]
      exact walkEntries_noGood rest s p e hr
    · rw [if_neg h]
      match node with
      | .statFails => exact walkEntries_noGood rest s p e hr
      | .special => exact walkEntries_noGood rest s p e hr
      | .file sz rOk dOk =>
        dsimp only
        have hsz : sz = 0 := by
          rw [noGoodNode] at hn
          exact of_decide_eq_true hn
        rw [if_pos hsz]
        exact walkEntries_noGood rest s p e hr
      | .dir o e2 its2 =>
        dsimp only
        rcases utils_readdir_noGood (.dir o e2 its2) s (p ++ "/" ++ name)
            (by simpa [noGoodNode] using hn) with hh | hh
        · rw [hh]
          exact walkEntries_noGood rest s p e hr
        · rw [hh]
          exact walkEntries_noGood rest s p e hr
end

mutual
/-- When every allocation during the walk succeeds, the walk preserves
well-formedness of the `infiles_t` state: whatever state it leaves behind
(on a `true` or a `false` return) is again well formed, every appended slot
holding a genuine path whose stat size was positive. -/
theorem utils_readdir_good :
    ∀ (n : Node) (s : InFiles) (p : String) (s2 : InFiles),
      allocsOkNode n = true → goodState s →
      outState (utils_readdir s p n) = some s2 → goodState s2
  | .dir true endErr items, s, p, s2, ha, hs, hout => by
    rw [utils_readdir] at hout
    exact walkEntries_good items s p endErr s2
      (by simpa [allocsOkNode] using ha) hs hout
  | .dir false _ _, s, p, s2, _, hs, hout => by
    rw [utils_readdir] at hout
    cases hout
    exact hs
  | .file _ _ _, s, p, s2, _, hs, hout => by
    rw [utils_readdir] at hout
    cases hout
    exact hs
  | .special, s, p, s2, _, hs, hout => by
    rw [utils_readdir] at hout
    cases hout
    exact hs
  | .statFails, s, p, s2, _, hs, hout => by
    rw [utils_readdir] at hout
    cases hout
    exact hs

/-- Entry-loop version of `utils_readdir_good`. -/
theorem walkEntries_good :
    ∀ (items : List DirItem) (s : InFiles) (p : String) (e : Bool)
      (s2 : InFiles),
      allocsOkItems items = true → goodState s →
      outState (walkEntries s p e items) = some s2 → goodState s2
  | [], s, p, e, s2, _, hs, hout => by
    rw [walkEntries] at hout
    split at hout <;> (cases hout; exact hs)
  | .eintr :: rest, s, p, e, s2, ha, hs, hout => by
    rw [walkEntries] at hout
    exact walkEntries_good rest s p e s2 (by simpa [allocsOkItems] using ha)
      hs hout
  | .entry name node :: rest, s, p, e, s2, ha, hs, hout => by
    have hn : allocsOkNode node = true := by
      rw [allocsOkItems] at ha
      exact (Bool.and_eq_true_iff.mp ha).1
    have hr : allocsOkItems rest = true := by
      rw [allocsOkItems] at ha
      exact (Bool.and_eq_true_iff.mp ha).2
    rw [walkEntries.eq_def] at hout
    dsimp only at hout
    by_cases h : (name == "." || name == "..") = true
    · rw [if_pos h] at hout
      exact walkEntries_good rest s p e s2 hr hs hout
    · rw [if_neg h] at hout
      match node, hn, hout with
      | .statFails, _, hout => exact walkEntries_good rest s p e s2 hr hs hout
      | .special, _, hout => exact walkEntries_good rest s p e s2 hr hs hout
      | .file sz rOk dOk, hn, hout =>
        dsimp only at hout
        have hro : rOk = true := by
          rw [allocsOkNode] at hn
          exact (Bool.and_eq_true_iff.mp hn).1
        have hdo : dOk = true := by
          rw [allocsOkNode] at hn
          exact (Bool.and_eq_true_iff.mp hn).2
        subst hro hdo
        by_cases hsz : sz = 0
        · rw [if_pos hsz] at hout
          exact walkEntries_good rest s p e s2 hr hs hout
        · rw [if_neg hsz, if_pos rfl, if_pos rfl] at hout
          obtain ⟨l, hfiles, hlen, hall⟩ := hs
          refine walkEntries_good rest _ p e s2 hr ?_ hout
          refine ⟨l ++ [some (p ++ "/" ++ name, sz)], ?_, ?_, ?_⟩
          · simp [currentArr, hfiles]
          · simp [hlen]
          · intro x hx
            rcases List.mem_append.mp hx with hx | hx
            · exact hall x hx
            · rcases List.mem_singleton.mp hx with rfl
              exact ⟨p ++ "/" ++ name, sz, rfl, Nat.pos_of_ne_zero hsz⟩
      | .dir o e2 its2, hn, hout =>
        dsimp only at hout
        rcases hh : utils_readdir s (p ++ "/" ++ name) (.dir o e2 its2) with
            s3 | s3 | _
        · rw [hh] at hout
          refine walkEntries_good rest s3 p e s2 hr ?_ hout
          exact utils_readdir_good (.dir o e2 its2) s (p ++ "/" ++ name) s3
            hn hs (by rw [hh]; rfl)
        · rw [hh] at hout
          refine walkEntries_good rest s3 p e s2 hr ?_ hout
          exact utils_readdir_good (.dir o e2 its2) s (p ++ "/" ++ name) s3
            hn hs (by rw [hh]; rfl)
        · exact absurd hh (utils_readdir_ne_fatal (.dir o e2 its2) s _)
end

/-- A run of the write loop that returns `true` has written exactly up to
the target, provided every successful `write` reported at most the number of
bytes it was asked for. -/
theorem writeLoop_success_exact :
    ∀ (oracle : List WriteRes) (w sz : Int), soundFrom oracle w sz →
      w ≤ sz → ∀ (w2 : Int) (c : Nat),
      writeLoop oracle w sz = some (true, w2, c) → w2 = sz
  | [], w, sz, _, hle, w2, c, h => by
    rw [writeLoop] at h
    split at h
    · exact absurd h (by simp)
    · next hlt =>
      obtain ⟨-, h2, -⟩ := Prod.mk.injEq .. ▸ Option.some.inj h
      omega
  | .eintr :: rest, w, sz, hs, hle, w2, c, h => by
    rw [soundFrom] at hs
    rw [writeLoop] at h
    split at h
    · obtain ⟨⟨b, w3, c3⟩, hw, hf⟩ := Option.map_eq_some'.mp h
      simp only [Prod.mk.injEq] at hf
      obtain ⟨hb, hw3, -⟩ := hf
      subst hb
      exact hw3 ▸ writeLoop_success_exact rest w sz hs hle w3 c3 hw
    · next hlt =>
      obtain ⟨-, h2, -⟩ := Prod.mk.injEq .. ▸ Option.some.inj h
      omega
  | .err :: rest, w, sz, _, hle, w2, c, h => by
    rw [writeLoop] at h
    split at h
    · obtain ⟨hb, -, -⟩ := Prod.mk.injEq .. ▸ Option.some.inj h
      exact absurd hb (by simp)
    · next hlt =>
      obtain ⟨-, h2, -⟩ := Prod.mk.injEq .. ▸ Option.some.inj h
      omega
  | .wrote n :: rest, w, sz, hs, hle, w2, c, h => by
    rw [soundFrom] at hs
    rw [writeLoop] at h
    split at h
    · next hlt =>
      obtain ⟨⟨b, w3, c3⟩, hw, hf⟩ := Option.map_eq_some'.mp h
      simp only [Prod.mk.injEq] at hf
      obtain ⟨hb, hw3, -⟩ := hf
      subst hb
      have hn : (n : Int) ≤ sz - w := hs.1 hlt
      exact hw3 ▸ writeLoop_success_exact rest (w + n) sz hs.2 (by omega) w3 c3 hw
    · next hlt =>
      obtain ⟨-, h2, -⟩ := Prod.mk.injEq .. ▸ Option.some.inj h
      omega

/-- Claim C5: `utils_writeToFd` loops over partial writes, transparently
retries a write that fails with EINTR, returns success only when exactly
`fileSz` bytes in total have been written (whenever each `write` reports at
most the requested remainder), and returns an ordinary `false` result on any
other write error. -/
theorem utils_writeToFd_spec :
    ∀ (oracle : List WriteRes) (sz : Int), 0 ≤ sz →
      (∀ (w : Int) (c : Nat), soundFrom oracle 0 sz →
        utils_writeToFd oracle sz = some (true, w, c) → w = sz) ∧
      (∀ (w : Int) (rest : List WriteRes), w < sz →
        writeLoop (.err :: rest) w sz = some (false, w, 1)) ∧
      (∀ (w : Int) (rest : List WriteRes), w < sz →
        writeLoop (.eintr :: rest) w sz =
          (writeLoop rest w sz).map (fun r => (r.1, r.2.1, r.2.2 + 1))) := by
  intro oracle sz hsz
  refine ⟨?_, ?_, ?_⟩
  · intro w c hs h
    exact writeLoop_success_exact oracle 0 sz hs hsz w c h
  · intro w rest hw
    conv_lhs => rw [writeLoop.eq_def]
    dsimp only
    rw [if_pos hw]
  · intro w rest hw
    conv_lhs => rw [writeLoop.eq_def]
    dsimp only
    rw [if_pos hw]

/-- Claim C5, witness: a concrete run with a partial write and an EINTR
retry writes exactly 3 bytes, and a concrete erroring call fails with the
counter unchanged. -/
theorem utils_writeToFd_spec_wit :
    (3 : Int) = 3 ∧ writeLoop [WriteRes.err] 0 3 = some (false, 0, 1) :=
  ⟨(utils_writeToFd_spec [.wrote 2, .eintr, .wrote 1] 3 (by omega)).1 3 3
      (by refine ⟨fun _ => by omega, fun _ => by omega, trivial⟩)
      (by decide),
   (utils_writeToFd_spec [] 3 (by omega)).2.1 0 [WriteRes.err] (by omega)⟩

/-- Claim C10: `utils_writeToFd` called with a length less than or equal to
0 returns success immediately, with nothing written and no `write` call
performed. -/
theorem writeToFd_nonpositive_noop :
    ∀ (oracle : List WriteRes) (sz : Int), sz ≤ 0 →
      utils_writeToFd oracle sz = some (true, 0, 0) := by
  intro oracle sz h
  rw [utils_writeToFd]
  conv_lhs => rw [writeLoop.eq_def]
  dsimp only
  rw [if_neg (by omega : ¬ (0 : Int) < sz)]

/-- Claim C10, witness: with length 0 and an oracle whose only answer would
be an error, the call still succeeds without touching the oracle. -/
theorem writeToFd_nonpositive_noop_wit :
    utils_writeToFd [WriteRes.err] 0 = some (true, 0, 0) :=
  writeToFd_nonpositive_noop [WriteRes.err] 0 (by omega)

/-- Claim C1, counterexample: at a concrete directory whose only entry is a
regular non-empty file for which `realloc` fails, the walk returns the
ordinary failure result `false` (with the array pointer clobbered to NULL),
and that result is not a process termination — refuting the claim that an
allocation failure during an append is fatal. -/
theorem readdir_allocFail_not_fatal_cex :
    utils_readdir ⟨some [], 0⟩ "r"
        (.dir true false [.entry "a.img" (.file 5 false true)]) =
      .fail ⟨none, 0⟩ ∧
    WalkOut.fail ⟨none, 0⟩ ≠ WalkOut.fatal := by
  constructor
  · decide
  · decide

/-- Claim C1 (amended): if an allocation fails while appending a path during
the recursive walk — the `realloc` of the array or the `strdup` of the path
— `utils_readdir` logs an error and returns the ordinary failure result
`false` to its caller; the walk never terminates the process (it calls plain
`realloc`/`strdup`, not the fatal Allocator wrappers). -/
theorem readdir_allocFail_ordinary_failure :
    (∀ (s : InFiles) (bp : String) (e : Bool) (name : String) (sz : Nat)
        (dOk : Bool) (rest : List DirItem),
        (name == "." || name == "..") = false → sz ≠ 0 →
        walkEntries s bp e (.entry name (.file sz false dOk) :: rest) =
          .fail ⟨none, s.fileCnt⟩) ∧
    (∀ (s : InFiles) (bp : String) (e : Bool) (name : String) (sz : Nat)
        (rest : List DirItem),
        (name == "." || name == "..") = false → sz ≠ 0 →
        walkEntries s bp e (.entry name (.file sz true false) :: rest) =
          .fail ⟨some (currentArr s), s.fileCnt⟩) ∧
    (∀ (s : InFiles) (p : String) (n : Node),
        utils_readdir s p n ≠ .fatal) := by
  refine ⟨?_, ?_, ?_⟩
  · intro s bp e name sz dOk rest hname hsz
    rw [walkEntries.eq_def]
    dsimp only
    rw [if_neg (by simp [hname]), if_neg hsz]
    rfl
  · intro s bp e name sz rest hname hsz
    rw [walkEntries.eq_def]
    dsimp only
    rw [if_neg (by simp [hname]), if_neg hsz]
    rfl
  · intro s p n
    exact utils_readdir_ne_fatal n s p

/-- Claim C1, witness: a concrete failing `realloc` makes the loop return
`false` with a NULL array, and a concrete walk result is not a process
termination. -/
theorem readdir_allocFail_ordinary_failure_wit :
    walkEntries ⟨some [], 0⟩ "r" false [.entry "x" (.file 3 false true)] =
      .fail ⟨none, 0⟩ ∧
    utils_readdir ⟨some [], 0⟩ "r" (.dir true false []) ≠ .fatal :=
  ⟨readdir_allocFail_ordinary_failure.1 ⟨some [], 0⟩ "r" false "x" 3 true []
      (by decide) (by decide),
   readdir_allocFail_ordinary_failure.2.2 ⟨some [], 0⟩ "r"
      (.dir true false [])⟩

/-- Claim C2, counterexample: for a root path naming a regular file of size
0, `utils_init_files` succeeds with a one-element file set — it does not
report failure, refuting the claim. -/
theorem init_files_zeroSizeRoot_cex :
    utils_init_files true (some "f") (.file 0 true true) =
      .ok ⟨some [some ("f", 0)], 1⟩ := by decide

/-- Claim C2 (amended): for every root path that names a regular file of
size 0, `utils_init_files` succeeds and returns a one-element file set
holding exactly that path — the single-file fast path stores the root
without any size check. -/
theorem init_files_zeroSizeRoot_succeeds :
    ∀ (f : String) (rOk dOk : Bool),
      utils_init_files true (some f) (.file 0 rOk dOk) =
        .ok ⟨some [some (f, 0)], 1⟩ := by
  intro f rOk dOk
  rfl

/-- Claim C3, counterexample: a successful run of `utils_init_files` on a
size-0 regular-file root stores an entry whose stat-time size is 0, so the
state violates the claimed every-entry-has-positive-size invariant. -/
theorem init_files_invariant_cex :
    utils_init_files true (some "g") (.file 0 true true) =
      .ok ⟨some [some ("g", 0)], 1⟩ ∧
    ¬ goodState ⟨some [some ("g", 0)], 1⟩ := by
  constructor
  · decide
  · rintro ⟨l, hl, -, hall⟩
    obtain rfl : l = [some ("g", 0)] := (Option.some.inj hl).symm
    obtain ⟨q, sz, hq, hpos⟩ := hall (some ("g", 0)) (by simp)
    have : ("g", 0) = (q, sz) := Option.some.inj hq
    have hsz : sz = 0 := by
      have := congrArg Prod.snd this
      simpa using this.symm
    omega

/-- Claim C3 (amended): after any successful run of `utils_init_files` in
which every allocation during the walk succeeds, the array pointer is
non-NULL, `fileCnt` equals the number of stored entries and every entry is
a genuine stored path; when the root is a directory, every entry moreover
referred, at the time it was stat'd, to a regular file of size strictly
greater than 0; when the root is a regular file, the single entry is the
root path itself with its stat size, which may be 0. -/
theorem init_files_entries_good :
    ∀ (mOk : Bool) (f : String) (root : Node) (s : InFiles),
      allocsOkNode root = true →
      utils_init_files mOk (some f) root = .ok s →
      (∃ l, s.files = some l ∧ l.length = s.fileCnt ∧
        ∀ x ∈ l, ∃ q sz, x = some (q, sz)) ∧
      (∀ (o er : Bool) (items : List DirItem),
        root = .dir o er items → goodState s) ∧
      (∀ (sz : Nat) (rOk dOk : Bool), root = .file sz rOk dOk →
        s = ⟨some [some (f, sz)], 1⟩) := by
  intro mOk f root s ha hinit
  cases mOk with
  | false => simp [utils_init_files] at hinit
  | true =>
    cases root with
    | statFails => simp [utils_init_files] at hinit
    | special => simp [utils_init_files] at hinit
    | file sz rOk dOk =>
      rw [utils_init_files] at hinit
      simp only [if_pos] at hinit
      have hs : s = ⟨some [some (f, sz)], 1⟩ := (WalkOut.ok.inj hinit).symm
      subst hs
      refine ⟨⟨[some (f, sz)], rfl, rfl, ?_⟩, ?_, ?_⟩
      · intro x hx
        rw [List.mem_singleton] at hx
        exact ⟨f, sz, hx⟩
      · intro o er items h
        cases h
      · intro sz2 rOk2 dOk2 h
        cases h
        rfl
    | dir o er items =>
      rw [utils_init_files] at hinit
      simp only [if_pos] at hinit
      have hgood0 : goodState ⟨some [], 0⟩ := by
        refine ⟨[], rfl, rfl, ?_⟩
        intro x hx
        simp at hx
      rcases hh : utils_readdir ⟨some [], 0⟩ f (.dir o er items) with
          s1 | s1 | _
      · rw [hh] at hinit
        dsimp only at hinit
        have hgs : goodState s1 :=
          utils_readdir_good (.dir o er items) ⟨some [], 0⟩ f s1 ha hgood0
            (by rw [hh]; rfl)
        by_cases hc : s1.fileCnt = 0
        · rw [if_pos hc] at hinit
          cases hinit
        · rw [if_neg hc] at hinit
          have hs : s = s1 := (WalkOut.ok.inj hinit).symm
          subst hs
          obtain ⟨l, h1, h2, h3⟩ := hgs
          refine ⟨⟨l, h1, h2, ?_⟩, fun _ _ _ _ => ⟨l, h1, h2, h3⟩, ?_⟩
          · intro x hx
            obtain ⟨q, sz, hq, -⟩ := h3 x hx
            exact ⟨q, sz, hq⟩
          · intro sz2 rOk2 dOk2 h
            cases h
      · rw [hh] at hinit
        dsimp only at hinit
        cases hinit
      · exact absurd hh (utils_readdir_ne_fatal (.dir o er items) ⟨some [], 0⟩ f)

/-- Claim C3, witness: a concrete successful run on a directory with one
non-empty regular file yields a well-formed state whose sole entry records
a positive stat size. -/
theorem init_files_entries_good_wit :
    goodState ⟨some [some ("r/a", 5)], 1⟩ :=
  (init_files_entries_good true "r"
      (.dir true false [.entry "a" (.file 5 true true)])
      ⟨some [some ("r/a", 5)], 1⟩ (by decide) (by decide)).2.1
    true false [.entry "a" (.file 5 true true)] rfl

/-- Claim C4: during the walk, an entry whose `stat` fails is skipped with
the state untouched and enumeration continues with the remaining siblings,
and a subdirectory entry whose recursive walk reports failure is likewise
skipped, enumeration continuing with the siblings from the state the failed
recursion left behind — in neither case does the enclosing loop abort or
report failure on account of that entry. -/
theorem walk_skips_failing_entries :
    (∀ (s : InFiles) (bp : String) (e : Bool) (name : String)
        (rest : List DirItem),
        walkEntries s bp e (.entry name .statFails :: rest) =
          walkEntries s bp e rest) ∧
    (∀ (s s2 : InFiles) (bp : String) (e : Bool) (name : String)
        (o er : Bool) (items rest : List DirItem),
        (name == "." || name == "..") = false →
        utils_readdir s (bp ++ "/" ++ name) (.dir o er items) = .fail s2 →
        walkEntries s bp e (.entry name (.dir o er items) :: rest) =
          walkEntries s2 bp e rest) := by
  constructor
  · intro s bp e name rest
    rw [walkEntries.eq_def]
    dsimp only
    split
    · rfl
    · rfl
  · intro s s2 bp e name o er items rest hname hh
    rw [walkEntries.eq_def]
    dsimp only
    rw [if_neg (by simp [hname])]
    rw [hh]

/-- Claim C4, witness: a concrete unreadable subdirectory (its `opendir`
fails) is skipped and enumeration continues with the next sibling. -/
theorem walk_skips_failing_entries_wit :
    walkEntries ⟨some [], 0⟩ "r" false
        [.entry "sub" (.dir false false []), .entry "z" .statFails] =
      walkEntries ⟨some [], 0⟩ "r" false [.entry "z" .statFails] :=
  walk_skips_failing_entries.2 ⟨some [], 0⟩ ⟨some [], 0⟩ "r" false "sub"
    false false [] [.entry "z" .statFails] (by decide) (by decide)

/-- Claim C8: for every root that is a directory whose tree contains no
regular file of positive size anywhere, `utils_init_files` reports failure:
either the walk itself fails, or it completes with zero files and the
zero-count check fails the initialization. -/
theorem init_files_emptyTree_fails :
    ∀ (mOk : Bool) (f : String) (o e : Bool) (items : List DirItem),
      noGoodNode (.dir o e items) = true →
      ∃ s, utils_init_files mOk (some f) (.dir o e items) = .fail s := by
  intro mOk f o e items hg
  cases mOk with
  | false => exact ⟨⟨none, 0⟩, rfl⟩
  | true =>
    refine ⟨⟨some [], 0⟩, ?_⟩
    rw [utils_init_files]
    simp only [if_pos]
    rcases utils_readdir_noGood (.dir o e items) ⟨some [], 0⟩ f hg with
        hh | hh
    · rw [hh]
      rfl
    · rw [hh]

/-- Claim C8, witness: a concrete directory holding only an empty
subdirectory and an empty regular file makes `utils_init_files` fail. -/
theorem init_files_emptyTree_fails_wit :
    ∃ s, utils_init_files true (some "r")
        (.dir true false
          [.entry "sub" (.dir true false []),
           .entry "e" (.file 0 true true)]) = .fail s :=
  init_files_emptyTree_fails true "r" true false
    [.entry "sub" (.dir true false []), .entry "e" (.file 0 true true)]
    (by decide)

/-- Claim C9: `utils_malloc`, `utils_calloc` and `utils_realloc` never
return a NULL pointer to their caller: with the fatal log terminating the
process, the post-failure return branch is unreachable, so every ordinary
return carries a non-NULL pointer. -/
theorem alloc_never_null :
    (∀ r : Option Nat, utils_malloc r ≠ .ret none) ∧
    (∀ r : Option Nat, utils_calloc r ≠ .ret none) ∧
    (∀ p r : Option Nat, utils_realloc p r ≠ .ret none) := by
  refine ⟨?_, ?_, ?_⟩
  · intro r
    cases r <;> simp [utils_malloc]
  · intro r
    cases r <;> simp [utils_calloc, utils_malloc]
  · intro p r
    cases r <;> simp [utils_realloc]

/-- Splitting a run of hex codes at its first byte. -/
theorem hexBytes_succ (pc : Nat → Nat) (start n : Nat) :
    hexBytes pc start (n + 1) =
      (" " ++ hexPad 2 (pc start)) :: hexBytes pc (start + 1) n := by
  rw [hexBytes, hexBytes, List.range_succ_eq_map, List.map_cons, List.map_map]
  simp only [List.cons.injEq]
  refine ⟨by simp, ?_⟩
  refine List.map_congr_left ?_
  intro j hj
  have h : start + (j + 1) = start + 1 + j := by omega
  simp [Function.comp, Nat.succ_eq_add_one, h]

/-- Splitting a run of gutter characters at its first byte. -/
theorem gutterChars_succ (pc : Nat → Nat) (start n : Nat) :
    gutterChars pc start (n + 1) =
      asciiByte (pc start) :: gutterChars pc (start + 1) n := by
  rw [gutterChars, gutterChars, List.range_succ_eq_map, List.map_cons,
    List.map_map]
  simp only [List.cons.injEq]
  refine ⟨by simp, ?_⟩
  refine List.map_congr_left ?_
  intro j hj
  have h : start + (j + 1) = start + 1 + j := by omega
  simp [Function.comp, Nat.succ_eq_add_one, h]

/-- Mid-row behavior of the byte loop of `utils_hexDump`: from index
`16*k + m` inside a row (`0 < m < 16`) with gutter buffer `buff`, the loop
emits the hex codes of the bytes left in the row; if the input runs out
first it pads the row to 16 columns and closes it with the gutter,
otherwise it reaches the next row start carrying the extended gutter. -/
theorem dumpLoop_midRow (pc : Nat → Nat) :
    ∀ (rem m k : Nat) (buff : List Char), 0 < m → m < 16 →
      dumpLoop pc rem (16 * k + m) buff =
        if rem ≤ 16 - m then
          hexBytes pc (16 * k + m) rem ++
          List.replicate ((16 - (m + rem) % 16) % 16) "   " ++
          ["  " ++ String.mk (buff ++ gutterChars pc (16 * k + m) rem) ++
            "\n"]
        else
          hexBytes pc (16 * k + m) (16 - m) ++
          dumpLoop pc (rem - (16 - m)) (16 * (k + 1))
            (buff ++ gutterChars pc (16 * k + m) (16 - m))
  | 0, m, k, buff, hm0, hm16 => by
    rw [if_pos (by omega)]
    rw [dumpLoop]
    have h1 : (16 * k + m) % 16 = m := by
      rw [Nat.mul_add_mod]
      exact Nat.mod_eq_of_lt hm16
    rw [h1]
    simp [hexBytes, gutterChars, Nat.mod_eq_of_lt hm16]
  | rem + 1, m, k, buff, hm0, hm16 => by
    have h1 : (16 * k + m) % 16 = m := by
      rw [Nat.mul_add_mod]
      exact Nat.mod_eq_of_lt hm16
    have h2 : ((16 * k + m) % 16 == 0) = false := by
      rw [h1]
      exact beq_eq_false_iff_ne.mpr (by omega)
    rw [dumpLoop]
    simp only [h2, Bool.false_eq_true, if_false]
    by_cases hm : m + 1 = 16
    · have hx : 16 * k + m + 1 = 16 * (k + 1) := by omega
      cases rem with
      | zero =>
        rw [if_pos (by omega)]
        rw [hx, dumpLoop]
        have h3 : 16 * (k + 1) % 16 = 0 := Nat.mul_mod_right 16 (k + 1)
        rw [h3]
        have h4 : (m + 1) % 16 = 0 := by omega
        have hr1 : List.range 1 = [0] := rfl
        simp [hexBytes, gutterChars, h4, hr1]
      | succ r =>
        rw [if_neg (by omega)]
        rw [hx]
        have h5 : 16 - m = 1 := by omega
        rw [h5]
        have hr1 : List.range 1 = [0] := rfl
        simp [hexBytes, gutterChars, hr1]
    · have hstep : 16 * k + m + 1 = 16 * k + (m + 1) := by omega
      have hIH := dumpLoop_midRow pc rem (m + 1) k
        (buff ++ [asciiByte (pc (16 * k + m))]) (by omega) (by omega)
      rw [← hstep] at hIH
      rw [hIH]
      by_cases hr : rem + 1 ≤ 16 - m
      · rw [if_pos (by omega : rem ≤ 16 - (m + 1)), if_pos hr]
        have e1 : m + 1 + rem = m + (rem + 1) := by omega
        rw [e1]
        rw [hexBytes_succ pc (16 * k + m) rem,
          gutterChars_succ pc (16 * k + m) rem]
        simp [List.append_assoc]
      · rw [if_neg (by omega : ¬rem ≤ 16 - (m + 1)), if_neg hr]
        have e2 : 16 - m = (16 - (m + 1)) + 1 := by omega
        rw [e2]
        rw [hexBytes_succ pc (16 * k + m) (16 - (m + 1)),
          gutterChars_succ pc (16 * k + m) (16 - (m + 1))]
        have e3 : rem + 1 - (16 - (m + 1) + 1) = rem - (16 - (m + 1)) := by
          omega
        rw [e3]
        simp [List.append_assoc]

/-- Row-start behavior of the byte loop of `utils_hexDump`: from the
row-start index `16*k` with at least one byte left, the loop first closes
the previous row's gutter (except at index 0) and then emits exactly the
row layout `hexRows`. -/
theorem dumpLoop_rowStart (pc : Nat → Nat) :
    ∀ (rem k : Nat) (buff : List Char), 0 < rem →
      dumpLoop pc rem (16 * k) buff =
        (if k = 0 then [] else ["  " ++ String.mk buff ++ "\n"]) ++
          hexRows pc (16 * k) rem
  | rem, k, buff, hrem => by
    obtain ⟨r, rfl⟩ : ∃ r, rem = r + 1 := ⟨rem - 1, by omega⟩
    rw [dumpLoop]
    have h0 : 16 * k % 16 = 0 := Nat.mul_mod_right 16 k
    have h2 : (16 * k % 16 == 0) = true := by
      rw [h0]
      rfl
    rw [if_pos h2, if_pos h2]
    have hbody : ["  " ++ hexPad 4 (16 * k) ++ " "] ++
        ([" " ++ hexPad 2 (pc (16 * k))] ++
          dumpLoop pc r (16 * k + 1) [asciiByte (pc (16 * k))]) =
        hexRows pc (16 * k) (r + 1) := by
      cases r with
      | zero =>
        rw [dumpLoop]
        have ha : (16 * k + 1) % 16 = 1 := by rw [Nat.mul_add_mod]
        rw [ha]
        rw [hexRows.eq_def, if_pos (by omega)]
        have hr1 : List.range 1 = [0] := rfl
        simp [hexBytes, gutterChars, hr1]
      | succ r2 =>
        rw [dumpLoop_midRow pc (r2 + 1) 1 k [asciiByte (pc (16 * k))]
          (by omega) (by omega)]
        by_cases hsm : r2 + 1 ≤ 16 - 1
        · rw [if_pos hsm]
          rw [hexRows.eq_def, if_pos (by omega : r2 + 1 + 1 ≤ 16)]
          rw [hexBytes_succ pc (16 * k) (r2 + 1),
            gutterChars_succ pc (16 * k) (r2 + 1)]
          have e1 : 1 + (r2 + 1) = r2 + 1 + 1 := by omega
          rw [e1]
          simp [List.append_assoc]
        · rw [if_neg hsm]
          rw [hexRows.eq_def, if_neg (by omega : ¬r2 + 1 + 1 ≤ 16)]
          have hrec := dumpLoop_rowStart pc (r2 + 1 - (16 - 1)) (k + 1)
            ([asciiByte (pc (16 * k))] ++ gutterChars pc (16 * k + 1) (16 - 1))
            (by omega)
          rw [hrec, if_neg (by omega : ¬k + 1 = 0)]
          have hb := hexBytes_succ pc (16 * k) 15
          have hg := gutterChars_succ pc (16 * k) 15
          norm_num at hb hg
          rw [hb, hg]
          have e2 : 16 * (k + 1) = 16 * k + 16 := by ring
          have e3 : r2 + 1 - (16 - 1) = r2 + 1 + 1 - 16 := by omega
          have e4 : (16 : Nat) - 1 = 15 := by omega
          rw [e2, e3, e4]
          simp [List.append_assoc]
    simp only [List.nil_append, List.append_assoc]
    simp only [List.append_assoc] at hbody
    rw [hbody]
    by_cases hk : k = 0
    · have h3 : (16 * k == 0) = true := by
        subst hk
        rfl
      rw [if_pos h3, if_pos hk]
    · have h3 : (16 * k == 0) = false := by
        refine beq_eq_false_iff_ne.mpr ?_
        omega
      rw [if_neg (by simp [h3]), if_neg hk]
termination_by rem _ _ _ => rem
decreasing_by omega

/-- Claim C6: `utils_mapFileToRead` returns NULL exactly when the open, the
stat or the mapping fails; when the stat or the mapping fails the
already-opened descriptor is closed before returning; when the open itself
fails no descriptor was opened; and on success it returns the mapped
buffer, stores the stat size through the out-parameter, and leaves the
descriptor open for the caller. -/
theorem utils_mapFileToRead_spec :
    ∀ (o st m : Option Nat),
      ((utils_mapFileToRead o st m).ret = none ↔
        o = none ∨ st = none ∨ m = none) ∧
      (o ≠ none → st = none ∨ m = none →
        (utils_mapFileToRead o st m).fdOpened = true ∧
        (utils_mapFileToRead o st m).fdClosed = true) ∧
      (o = none → (utils_mapFileToRead o st m).fdOpened = false) ∧
      (o ≠ none → st ≠ none → m ≠ none →
        (utils_mapFileToRead o st m).ret = m ∧
        (utils_mapFileToRead o st m).szOut = st ∧
        (utils_mapFileToRead o st m).fdOpened = true ∧
        (utils_mapFileToRead o st m).fdClosed = false) := by
  intro o st m
  cases o <;> cases st <;> cases m <;>
    simp [utils_mapFileToRead]

/-- Claim C6, witness: with all three syscalls succeeding the buffer and
size are returned and the descriptor stays open; with a failing `fstat` the
descriptor is closed and NULL returned. -/
theorem utils_mapFileToRead_spec_wit :
    ((utils_mapFileToRead (some 3) (some 7) (some 9)).ret = some 9 ∧
     (utils_mapFileToRead (some 3) (some 7) (some 9)).szOut = some 7 ∧
     (utils_mapFileToRead (some 3) (some 7) (some 9)).fdOpened = true ∧
     (utils_mapFileToRead (some 3) (some 7) (some 9)).fdClosed = false) ∧
    ((utils_mapFileToRead (some 3) none (some 9)).fdOpened = true ∧
     (utils_mapFileToRead (some 3) none (some 9)).fdClosed = true) :=
  ⟨(utils_mapFileToRead_spec (some 3) (some 7) (some 9)).2.2.2
      (by simp) (by simp) (by simp),
   (utils_mapFileToRead_spec (some 3) none (some 9)).2.1
      (by simp) (Or.inl rfl)⟩

/-- Claim C7: `utils_hexDump` with length 0 emits the zero-length notice
and no byte rows; with negative length it emits the negative-length notice
and its output does not depend on the input buffer; the ASCII gutter
renders every byte below 0x20 or above 0x7e as a dot and any other byte as
itself; a 20-byte input yields exactly two rows of 16 bytes per row,
prefixed by the 4-hex-digit offsets 0000 and 0010, the second row padded to
16 columns, each row followed by its ASCII gutter; and in general every
positive length produces exactly the row layout `hexRows`: 16 bytes per
row, each row prefixed by the 4-hex-digit offset of its first byte and
closed by its ASCII gutter, the last row padded to 16 columns. -/
theorem utils_hexDump_spec :
    (∀ (desc : Option String) (pc : Nat → Nat),
      utils_hexDump desc pc 0 = descHeader desc ++ ["  ZERO LENGTH\n"]) ∧
    (∀ (desc : Option String) (pc pc2 : Nat → Nat) (len : Int), len < 0 →
      utils_hexDump desc pc len =
        descHeader desc ++
          ["  NEGATIVE LENGTH: " ++ toString len ++ "\n"] ∧
      utils_hexDump desc pc len = utils_hexDump desc pc2 len) ∧
    (∀ b : Nat,
      (b < 0x20 ∨ 0x7e < b → asciiByte b = '.') ∧
      (0x20 ≤ b → b ≤ 0x7e → asciiByte b = Char.ofNat b)) ∧
    (∀ (desc : Option String) (pc : Nat → Nat),
      utils_hexDump desc pc 20 =
        descHeader desc ++
        ["  0000 ",
         " " ++ hexPad 2 (pc 0), " " ++ hexPad 2 (pc 1),
         " " ++ hexPad 2 (pc 2), " " ++ hexPad 2 (pc 3),
         " " ++ hexPad 2 (pc 4), " " ++ hexPad 2 (pc 5),
         " " ++ hexPad 2 (pc 6), " " ++ hexPad 2 (pc 7),
         " " ++ hexPad 2 (pc 8), " " ++ hexPad 2 (pc 9),
         " " ++ hexPad 2 (pc 10), " " ++ hexPad 2 (pc 11),
         " " ++ hexPad 2 (pc 12), " " ++ hexPad 2 (pc 13),
         " " ++ hexPad 2 (pc 14), " " ++ hexPad 2 (pc 15),
         "  " ++ String.mk [asciiByte (pc 0), asciiByte (pc 1),
           asciiByte (pc 2), asciiByte (pc 3), asciiByte (pc 4),
           asciiByte (pc 5), asciiByte (pc 6), asciiByte (pc 7),
           asciiByte (pc 8), asciiByte (pc 9), asciiByte (pc 10),
           asciiByte (pc 11), asciiByte (pc 12), asciiByte (pc 13),
           asciiByte (pc 14), asciiByte (pc 15)] ++ "\n",
         "  0010 ",
         " " ++ hexPad 2 (pc 16), " " ++ hexPad 2 (pc 17),
         " " ++ hexPad 2 (pc 18), " " ++ hexPad 2 (pc 19),
         "   ", "   ", "   ", "   ", "   ", "   ",
         "   ", "   ", "   ", "   ", "   ", "   ",
         "  " ++ String.mk [asciiByte (pc 16), asciiByte (pc 17),
           asciiByte (pc 18), asciiByte (pc 19)] ++ "\n"]) ∧
    (∀ (desc : Option String) (pc : Nat → Nat) (len : Int), 0 < len →
      utils_hexDump desc pc len =
        descHeader desc ++ hexRows pc 0 len.toNat) := by
  refine ⟨?_, ?_, ?_, ?_, ?_⟩
  · intro desc pc
    cases desc <;> rfl
  · intro desc pc pc2 len h
    have h0 : ¬len = 0 := by omega
    have e1 : utils_hexDump desc pc len =
        descHeader desc ++
          ["  NEGATIVE LENGTH: " ++ toString len ++ "\n"] := by
      rw [utils_hexDump.eq_def, if_neg h0, if_pos h]
      cases desc <;> rfl
    have e2 : utils_hexDump desc pc2 len =
        descHeader desc ++
          ["  NEGATIVE LENGTH: " ++ toString len ++ "\n"] := by
      rw [utils_hexDump.eq_def, if_neg h0, if_pos h]
      cases desc <;> rfl
    exact ⟨e1, e1.trans e2.symm⟩
  · intro b
    constructor
    · intro h
      rw [asciiByte, if_pos h]
    · intro h1 h2
      rw [asciiByte, if_neg (by rintro (h | h) <;> omega)]
  · intro desc pc
    cases desc <;> rfl
  · intro desc pc len h
    rw [utils_hexDump.eq_def, if_neg (by omega : ¬len = 0),
      if_neg (by omega : ¬len < 0)]
    have hds := dumpLoop_rowStart pc len.toNat 0 [] (by omega)
    simp only [Nat.mul_zero, List.nil_append, if_pos] at hds
    rw [hds]
    cases desc <;> rfl

/-- Claim C7, witness: a concrete negative-length call emits only the
negative-length notice, a concrete non-printable byte is rendered as a dot
in the gutter, and a concrete positive-length call produces the row
layout. -/
theorem utils_hexDump_spec_wit :
    utils_hexDump none (fun _ => 0) (-5) =
      descHeader none ++
        ["  NEGATIVE LENGTH: " ++ toString (-5 : Int) ++ "\n"] ∧
    asciiByte 31 = '.' ∧
    utils_hexDump none (fun _ => 0) 20 =
      descHeader none ++ hexRows (fun _ => 0) 0 ((20 : Int).toNat) :=
  ⟨(utils_hexDump_spec.2.1 none (fun _ => 0) (fun _ => 0) (-5) (by omega)).1,
   (utils_hexDump_spec.2.2.1 31).1 (Or.inl (by omega)),
   utils_hexDump_spec.2.2.2.2 none (fun _ => 0) 20 (by omega)⟩

/-- Evaluation check: a mixed tree with an EINTR retry, the `.`
pseudo-entry, a non-empty file, a subdirectory holding another non-empty
file, an empty file and a special file yields exactly the two non-empty
regular files, in traversal order. -/
theorem utils_init_files_mixed_tree :
    utils_init_files true (some "r")
        (.dir true false
          [.eintr, .entry "." .special, .entry "a" (.file 5 true true),
           .entry "sub" (.dir true false [.entry "b" (.file 7 true true)]),
           .entry "e" (.file 0 true true), .entry "s" .special]) =
      .ok ⟨some [some ("r/a", 5), some ("r/sub/b", 7)], 2⟩ := by decide

end QcImage
